import Mathlib

/-!
Shallow embedding of the core of terragrunt-atlantis-config:
the resolved-locals data model and merge engine of cmd/parse_locals.go,
the include-resolution recursion of parseLocals, the value extraction of
resolveLocals, and the prior-output reader readOldConfig.

Go conventions are mapped as follows: a Go pointer-to-bool field becomes
Option Bool (nil becomes none); a Go slice of strings becomes
Option (List String) when the nil slice is distinguished from the empty
slice (as the merge does for the requirement lists), and List String for
the always-appended dependency list (where the zero value nil behaves as
the empty list); a Go string field stays String with the zero value "".
File reads, HCL parsing and base-block decoding are modelled as an
environment mapping a path to either an error or the decoded module file.
-/

namespace TerragruntAtlantis

/-- Evaluated cty values as consumed by resolveLocals: the extraction only
uses string values (AsString), boolean values (True) and list values
(ElementIterator), so the embedding carries exactly those shapes. -/
inductive CtyValue where
  | str : String → CtyValue
  | bool : Bool → CtyValue
  | list : List CtyValue → CtyValue

/-- Value.AsString of go-cty, on the values the extraction applies it to. -/
def CtyValue.asString : CtyValue → String
  | .str s => s
  | _ => ""

/-- Value.True of go-cty, on the values the extraction applies it to. -/
def CtyValue.trueVal : CtyValue → Bool
  | .bool b => b
  | _ => false

/-- The element sequence produced by Value.ElementIterator. -/
def CtyValue.elements : CtyValue → List CtyValue
  | .list l => l
  | _ => []

/-- The evaluated locals mapping of one module, name to value. -/
abbrev LocalsMap := List (String × CtyValue)

/-- Go map lookup rawLocals[key]. -/
def lookupLocal (m : LocalsMap) (key : String) : Option CtyValue :=
  (m.find? (fun p => p.1 == key)).map Prod.snd

/-- filepath.ToSlash of Go: replaces the OS path separator by the forward
slash; on a Unix build the separator already is the slash, so it is the
identity. -/
def filepathToSlash (s : String) : String := s

/-- ResolvedLocals of cmd/parse_locals.go: the parsed result of the local
values one module cares about. Field names and order follow the source. -/
structure ResolvedLocals where
  BranchProject : String
  DeleteSourceBranchOnMergeProject : Option Bool
  AtlantisWorkflow : String
  PlanRequirements : Option (List String)
  ApplyRequirements : Option (List String)
  ImportRequirements : Option (List String)
  ExtraAtlantisDependencies : List String
  AutoPlan : Option Bool
  RepoLocking : Option Bool
  Skip : Option Bool
  TerraformVersion : String
  markedProject : Option Bool
deriving Repr, DecidableEq

/-- The Go zero value ResolvedLocals\x7b\x7d: empty strings, nil pointers,
nil slices. -/
def emptyResolvedLocals : ResolvedLocals :=
  { BranchProject := ""
    DeleteSourceBranchOnMergeProject := none
    AtlantisWorkflow := ""
    PlanRequirements := none
    ApplyRequirements := none
    ImportRequirements := none
    ExtraAtlantisDependencies := []
    AutoPlan := none
    RepoLocking := none
    Skip := none
    TerraformVersion := ""
    markedProject := none }

/-- Go len of a possibly-nil slice: len of nil is 0. -/
def sliceLen : Option (List String) → Nat
  | none => 0
  | some l => l.length

/-- mergeResolvedLocals of cmd/parse_locals.go: merges values from a child
into a parent set of local values. The Go body mutates a copy of parent
field by field behind per-field guards; each guard touches one distinct
field, so the sequence of guarded assignments is rendered as one record
whose fields carry the corresponding conditionals. -/
def mergeResolvedLocals (parent child : ResolvedLocals) : ResolvedLocals :=
  { BranchProject :=
      if child.BranchProject ≠ "" then child.BranchProject else parent.BranchProject
    DeleteSourceBranchOnMergeProject :=
      if child.DeleteSourceBranchOnMergeProject ≠ none then
        child.DeleteSourceBranchOnMergeProject
      else parent.DeleteSourceBranchOnMergeProject
    AtlantisWorkflow :=
      if child.AtlantisWorkflow ≠ "" then child.AtlantisWorkflow else parent.AtlantisWorkflow
    TerraformVersion :=
      if child.TerraformVersion ≠ "" then child.TerraformVersion else parent.TerraformVersion
    AutoPlan :=
      if child.AutoPlan ≠ none then child.AutoPlan else parent.AutoPlan
    RepoLocking :=
      if child.RepoLocking ≠ none then child.RepoLocking else parent.RepoLocking
    Skip :=
      if child.Skip ≠ none then child.Skip else parent.Skip
    markedProject :=
      if child.markedProject ≠ none then child.markedProject else parent.markedProject
    PlanRequirements :=
      if child.PlanRequirements ≠ none ∨ sliceLen child.PlanRequirements > 0 then
        child.PlanRequirements
      else parent.PlanRequirements
    ApplyRequirements :=
      if child.ApplyRequirements ≠ none ∨ sliceLen child.ApplyRequirements > 0 then
        child.ApplyRequirements
      else parent.ApplyRequirements
    ImportRequirements :=
      if child.ImportRequirements ≠ none ∨ sliceLen child.ImportRequirements > 0 then
        child.ImportRequirements
      else parent.ImportRequirements
    ExtraAtlantisDependencies :=
      parent.ExtraAtlantisDependencies ++ child.ExtraAtlantisDependencies }

/-- Step of resolveLocals for the key atlantis_branch. -/
def resolveBranch (rawLocals : LocalsMap) (resolved : ResolvedLocals) : ResolvedLocals :=
  match lookupLocal rawLocals "atlantis_branch" with
  | some v => { resolved with BranchProject := v.asString }
  | none => resolved

/-- Step of resolveLocals for the key atlantis_delete_source_branch_on_merge. -/
def resolveDeleteSourceBranch (rawLocals : LocalsMap) (resolved : ResolvedLocals) :
    ResolvedLocals :=
  match lookupLocal rawLocals "atlantis_delete_source_branch_on_merge" with
  | some v => { resolved with DeleteSourceBranchOnMergeProject := some v.trueVal }
  | none => resolved

/-- Step of resolveLocals for the key atlantis_workflow. -/
def resolveWorkflow (rawLocals : LocalsMap) (resolved : ResolvedLocals) : ResolvedLocals :=
  match lookupLocal rawLocals "atlantis_workflow" with
  | some v => { resolved with AtlantisWorkflow := v.asString }
  | none => resolved

/-- Step of resolveLocals for the key atlantis_terraform_version. -/
def resolveTerraformVersion (rawLocals : LocalsMap) (resolved : ResolvedLocals) :
    ResolvedLocals :=
  match lookupLocal rawLocals "atlantis_terraform_version" with
  | some v => { resolved with TerraformVersion := v.asString }
  | none => resolved

/-- Step of resolveLocals for the key atlantis_autoplan. -/
def resolveAutoPlan (rawLocals : LocalsMap) (resolved : ResolvedLocals) : ResolvedLocals :=
  match lookupLocal rawLocals "atlantis_autoplan" with
  | some v => { resolved with AutoPlan := some v.trueVal }
  | none => resolved

/-- Step of resolveLocals for the key atlantis_repo_locking. -/
def resolveRepoLocking (rawLocals : LocalsMap) (resolved : ResolvedLocals) : ResolvedLocals :=
  match lookupLocal rawLocals "atlantis_repo_locking" with
  | some v => { resolved with RepoLocking := some v.trueVal }
  | none => resolved

/-- Step of resolveLocals for the key atlantis_skip. -/
def resolveSkip (rawLocals : LocalsMap) (resolved : ResolvedLocals) : ResolvedLocals :=
  match lookupLocal rawLocals "atlantis_skip" with
  | some v => { resolved with Skip := some v.trueVal }
  | none => resolved

/-- Step of resolveLocals for the key atlantis_plan_requirements: starts
from the explicit empty slice and appends each element as a string. -/
def resolvePlanRequirements (rawLocals : LocalsMap) (resolved : ResolvedLocals) :
    ResolvedLocals :=
  match lookupLocal rawLocals "atlantis_plan_requirements" with
  | some v => { resolved with PlanRequirements := some (v.elements.map CtyValue.asString) }
  | none => resolved

/-- Step of resolveLocals for the key atlantis_apply_requirements. -/
def resolveApplyRequirements (rawLocals : LocalsMap) (resolved : ResolvedLocals) :
    ResolvedLocals :=
  match lookupLocal rawLocals "atlantis_apply_requirements" with
  | some v => { resolved with ApplyRequirements := some (v.elements.map CtyValue.asString) }
  | none => resolved

/-- Step of resolveLocals for the import requirements: the source looks up
the key spelled atlantis_immport_requirements, with a doubled letter m. -/
def resolveImportRequirements (rawLocals : LocalsMap) (resolved : ResolvedLocals) :
    ResolvedLocals :=
  match lookupLocal rawLocals "atlantis_immport_requirements" with
  | some v => { resolved with ImportRequirements := some (v.elements.map CtyValue.asString) }
  | none => resolved

/-- Step of resolveLocals for the key atlantis_project. -/
def resolveMarkedProject (rawLocals : LocalsMap) (resolved : ResolvedLocals) : ResolvedLocals :=
  match lookupLocal rawLocals "atlantis_project" with
  | some v => { resolved with markedProject := some v.trueVal }
  | none => resolved

/-- Step of resolveLocals for the key extra_atlantis_dependencies: appends
each element, slash-normalized, to the dependency list. -/
def resolveExtraDependencies (rawLocals : LocalsMap) (resolved : ResolvedLocals) :
    ResolvedLocals :=
  match lookupLocal rawLocals "extra_atlantis_dependencies" with
  | some v =>
      { resolved with
        ExtraAtlantisDependencies :=
          resolved.ExtraAtlantisDependencies ++
            v.elements.map (fun e => filepathToSlash e.asString) }
  | none => resolved

/-- resolveLocals of cmd/parse_locals.go: extracts the recognized keys of an
evaluated locals mapping into a ResolvedLocals record, in source order. The
argument is none when localsAsCty is cty.NilVal, in which case an empty set
of locals is returned because no locals block was present. -/
def resolveLocals (localsAsCty : Option LocalsMap) : ResolvedLocals :=
  match localsAsCty with
  | none => emptyResolvedLocals
  | some rawLocals =>
      let resolved := emptyResolvedLocals
      let resolved := resolveBranch rawLocals resolved
      let resolved := resolveDeleteSourceBranch rawLocals resolved
      let resolved := resolveWorkflow rawLocals resolved
      let resolved := resolveTerraformVersion rawLocals resolved
      let resolved := resolveAutoPlan rawLocals resolved
      let resolved := resolveRepoLocking rawLocals resolved
      let resolved := resolveSkip rawLocals resolved
      let resolved := resolvePlanRequirements rawLocals resolved
      let resolved := resolveApplyRequirements rawLocals resolved
      let resolved := resolveImportRequirements rawLocals resolved
      let resolved := resolveMarkedProject rawLocals resolved
      resolveExtraDependencies rawLocals resolved

/-- An include block of the current module, as carried in
trackInclude.CurrentList; only the parent path matters to parseLocals. -/
structure IncludeConfig where
  Path : String
deriving Repr, DecidableEq

/-- Outcome of the three leading steps of parseLocals for one file:
util.ReadFileAsString, parseHcl and config.DecodeBaseBlocks, which either
fail with an error or produce the evaluated locals (none for cty.NilVal)
and the include list (none when trackInclude is nil). -/
structure ModuleFile where
  localsAsCty : Option LocalsMap
  trackInclude : Option (List IncludeConfig)

/-- The filesystem-and-parser environment: what reading, parsing and
decoding the file at each path yields. -/
abbrev Env := String → Except String ModuleFile

/-- parseLocals of cmd/parse_locals.go, with an explicit fuel bound on the
recursion depth (the Go function recurses only when includeFromChild is
nil, and every recursive call passes a non-nil includeFromChild, so fuel 2
is always enough; see parseLocalsFuel_stable_ge_two). A recursive call on
an include whose resolution fails has its error discarded, the Go body
binds it to the blank identifier, and the returned zero-value record is
merged in. -/
def parseLocalsFuel (env : Env) :
    Nat → String → Option IncludeConfig → Except String ResolvedLocals
  | 0, _, _ => .error "recursion limit exhausted"
  | fuel + 1, path, includeFromChild =>
    match env path with
    | .error e => .error e
    | .ok file =>
        let mergedParentLocals :=
          match includeFromChild, file.trackInclude with
          | none, some currentList =>
              currentList.foldl
                (fun acc includeConfig =>
                  mergeResolvedLocals acc
                    (match parseLocalsFuel env fuel includeConfig.Path (some includeConfig) with
                     | .ok parentLocals => parentLocals
                     | .error _ => emptyResolvedLocals))
                emptyResolvedLocals
          | _, _ => emptyResolvedLocals
        let childLocals := resolveLocals file.localsAsCty
        .ok (mergeResolvedLocals mergedParentLocals childLocals)

/-- parseLocals at the fuel bound 2, which the recursion never exceeds. -/
def parseLocals (env : Env) (path : String) (includeFromChild : Option IncludeConfig) :
    Except String ResolvedLocals :=
  parseLocalsFuel env 2 path includeFromChild

/-- AutoplanConfig of the output data model: autoplan settings. -/
structure AutoplanConfig where
  WhenModified : List String
  Enabled : Bool
deriving Repr, DecidableEq

/-- AtlantisProject of the output data model: one project directory. The
three requirement lists are pointers to slices in Go, kept as options so
that only explicitly stated lists are emitted. -/
structure AtlantisProject where
  Name : String
  Branch : String
  Dir : String
  Workspace : String
  ExecutionOrderGroup : Int
  DeleteSourceBranchOnMergeProject : Bool
  RepoLocking : Bool
  Autoplan : AutoplanConfig
  TerraformVersion : String
  PlanRequirements : Option (List String)
  ApplyRequirements : Option (List String)
  ImportRequirements : Option (List String)
  Workflow : String
deriving Repr, DecidableEq

/-- AtlantisConfig of the output data model: the entire config file. The
Workflows field has the opaque Go type interface\x7b\x7d and is preserved,
never generated; it is carried as uninterpreted text. -/
structure AtlantisConfig where
  Version : Int
  AutoMerge : Bool
  DeleteSourceBranchOnMergeGlobal : Bool
  ParallelPlan : Bool
  ParallelApply : Bool
  Projects : List AtlantisProject
  Workflows : Option String
deriving Repr, DecidableEq

/-- readOldConfig: checks whether an output file already exists and, if so,
reads it in to preserve parts of the old config. The ioutil.ReadFile call
is modelled by readResult, none when the read fails (the old file not
existing is not an error and yields no prior state), and the
yaml.Unmarshal call by the unmarshal argument, whose error is returned. -/
def readOldConfig (unmarshal : String → Except String AtlantisConfig)
    (readResult : Option String) : Except String (Option AtlantisConfig) :=
  match readResult with
  | none => .ok none
  | some bytes =>
      match unmarshal bytes with
      | .error e => .error e
      | .ok config => .ok (some config)

/-!
Helper lemmas shared by several claims: the per-field guards of
mergeResolvedLocals, restated through Option.isSome, and unfolding lemmas
for the bounded recursion of parseLocalsFuel.
-/

theorem ite_ne_none_eq_isSome {α : Type} [DecidableEq α] (o p : Option α) :
    (if o ≠ none then o else p) = (if o.isSome then o else p) := by
  cases o <;> simp

theorem ite_slice_eq_isSome (o p : Option (List String)) :
    (if o ≠ none ∨ sliceLen o > 0 then o else p) = (if o.isSome then o else p) := by
  cases o <;> simp [sliceLen]

theorem ite_ne_empty_self (s : String) : (if s ≠ "" then s else "") = s := by
  split <;> simp_all

theorem ite_ne_none_self {α : Type} [DecidableEq α] (o : Option α) :
    (if o ≠ none then o else none) = o := by
  cases o <;> simp

theorem ite_slice_self (o : Option (List String)) :
    (if o ≠ none ∨ sliceLen o > 0 then o else none) = o := by
  cases o <;> simp [sliceLen]

/-- The record a failed or successful parent contributes to the fold of
parseLocals: the zero-value record when reading, parsing or decoding the
parent fails (the error is discarded), and otherwise the parent file's own
extracted locals, because the recursive call carries a non-nil
includeFromChild and therefore does not recurse further. -/
def resolveParentRecord (env : Env) (path : String) : ResolvedLocals :=
  match env path with
  | .error _ => emptyResolvedLocals
  | .ok file => mergeResolvedLocals emptyResolvedLocals (resolveLocals file.localsAsCty)

theorem parseLocalsFuel_some (env : Env) (fuel : Nat) (path : String) (i : IncludeConfig)
    (h : 1 ≤ fuel) :
    parseLocalsFuel env fuel path (some i) =
      match env path with
      | .error e => .error e
      | .ok file => .ok (mergeResolvedLocals emptyResolvedLocals (resolveLocals file.localsAsCty)) := by
  obtain ⟨k, rfl⟩ : ∃ k, fuel = k + 1 := ⟨fuel - 1, by omega⟩
  conv_lhs => unfold parseLocalsFuel

theorem parseLocalsFuel_top (env : Env) (fuel : Nat) (path : String) :
    parseLocalsFuel env (fuel + 1) path none =
      match env path with
      | .error e => .error e
      | .ok file =>
          .ok (mergeResolvedLocals
            ((file.trackInclude.getD []).foldl
              (fun acc includeConfig =>
                mergeResolvedLocals acc
                  (match parseLocalsFuel env fuel includeConfig.Path (some includeConfig) with
                   | .ok parentLocals => parentLocals
                   | .error _ => emptyResolvedLocals))
              emptyResolvedLocals)
            (resolveLocals file.localsAsCty)) := by
  conv_lhs => unfold parseLocalsFuel
  cases h : env path with
  | error e => rfl
  | ok file =>
      obtain ⟨lcl, ti⟩ := file
      cases ti <;> rfl

theorem parseLocalsFuel_child_val (env : Env) (fuel : Nat) (path : String) (i : IncludeConfig)
    (h : 1 ≤ fuel) :
    (match parseLocalsFuel env fuel path (some i) with
     | .ok parentLocals => parentLocals
     | .error _ => emptyResolvedLocals) = resolveParentRecord env path := by
  rw [parseLocalsFuel_some env fuel path i h]
  unfold resolveParentRecord
  cases env path <;> rfl

/-- C1: for every parent and child record, every replace-semantics field of
mergeResolvedLocals parent child carries the child value exactly when the
child field is set (non-empty for the plain string fields, non-nil for the
pointer and slice fields) and the parent value otherwise; in particular a
child requirement list explicitly set to the empty list replaces the
parent list with the explicit empty list. -/
theorem merge_replace_semantics (parent child : ResolvedLocals) :
    (mergeResolvedLocals parent child).BranchProject =
      (if child.BranchProject ≠ "" then child.BranchProject else parent.BranchProject)
    ∧ (mergeResolvedLocals parent child).AtlantisWorkflow =
      (if child.AtlantisWorkflow ≠ "" then child.AtlantisWorkflow else parent.AtlantisWorkflow)
    ∧ (mergeResolvedLocals parent child).TerraformVersion =
      (if child.TerraformVersion ≠ "" then child.TerraformVersion else parent.TerraformVersion)
    ∧ (mergeResolvedLocals parent child).DeleteSourceBranchOnMergeProject =
      (if child.DeleteSourceBranchOnMergeProject.isSome then
        child.DeleteSourceBranchOnMergeProject
      else parent.DeleteSourceBranchOnMergeProject)
    ∧ (mergeResolvedLocals parent child).AutoPlan =
      (if child.AutoPlan.isSome then child.AutoPlan else parent.AutoPlan)
    ∧ (mergeResolvedLocals parent child).RepoLocking =
      (if child.RepoLocking.isSome then child.RepoLocking else parent.RepoLocking)
    ∧ (mergeResolvedLocals parent child).Skip =
      (if child.Skip.isSome then child.Skip else parent.Skip)
    ∧ (mergeResolvedLocals parent child).markedProject =
      (if child.markedProject.isSome then child.markedProject else parent.markedProject)
    ∧ (mergeResolvedLocals parent child).PlanRequirements =
      (if child.PlanRequirements.isSome then child.PlanRequirements else parent.PlanRequirements)
    ∧ (mergeResolvedLocals parent child).ApplyRequirements =
      (if child.ApplyRequirements.isSome then
        child.ApplyRequirements
      else parent.ApplyRequirements)
    ∧ (mergeResolvedLocals parent child).ImportRequirements =
      (if child.ImportRequirements.isSome then
        child.ImportRequirements
      else parent.ImportRequirements)
    ∧ (mergeResolvedLocals parent
        { child with PlanRequirements := some [] }).PlanRequirements = some []
    ∧ (mergeResolvedLocals parent
        { child with ApplyRequirements := some [] }).ApplyRequirements = some []
    ∧ (mergeResolvedLocals parent
        { child with ImportRequirements := some [] }).ImportRequirements = some [] := by
  refine ⟨rfl, rfl, rfl, ?_, ?_, ?_, ?_, ?_, ?_, ?_, ?_, ?_, ?_, ?_⟩ <;>
    simp only [mergeResolvedLocals, ite_ne_none_eq_isSome, ite_slice_eq_isSome] <;>
    simp [sliceLen]

/-- C2: for every parent and child record, the extra-dependency list of the
merged record is the parent entries followed by the child entries, in
order and without de-duplication, and no other field of the merge depends
on the extra-dependency lists of the inputs. -/
theorem merge_append_extra_dependencies (parent child : ResolvedLocals) :
    (mergeResolvedLocals parent child).ExtraAtlantisDependencies =
      parent.ExtraAtlantisDependencies ++ child.ExtraAtlantisDependencies
    ∧ ∀ d d' : List String,
      { mergeResolvedLocals { parent with ExtraAtlantisDependencies := d }
          { child with ExtraAtlantisDependencies := d' } with
        ExtraAtlantisDependencies := [] } =
      { mergeResolvedLocals parent child with ExtraAtlantisDependencies := [] } :=
  ⟨rfl, fun _ _ => rfl⟩

/-- C8: the all-unset zero-value record is a left identity of
mergeResolvedLocals, so a module with an empty include fold resolves to
exactly its own extracted record. -/
theorem merge_empty_left_identity (child : ResolvedLocals) :
    mergeResolvedLocals emptyResolvedLocals child = child := by
  cases child
  simp [mergeResolvedLocals, emptyResolvedLocals, ite_ne_empty_self, ite_ne_none_self,
    ite_slice_self]
  exact ⟨fun h => h.symm, fun h => h.symm, fun h => h.symm, fun h => h.symm,
    fun h => h.symm, fun h => h.symm, fun h => h.symm, fun h => h.symm⟩

/-- C9: when no locals block was present (localsAsCty is cty.NilVal, here
none), resolveLocals returns the all-unset record; resolveLocals is total,
so no error is possible. -/
theorem resolveLocals_absent_block : resolveLocals none = emptyResolvedLocals := rfl

/-- An environment with a self-referential include: the file at path a
declares an include whose path is a again, together with one local. -/
def cyclicEnv : Env := fun path =>
  if path = "a" then
    .ok { localsAsCty := some [("atlantis_workflow", CtyValue.str "w")],
          trackInclude := some [{ Path := "a" }] }
  else .error "no such file"

/-- C3 counterexample: on a self-referential include chain, parseLocals
does not fail with any cyclic-include error; it terminates and returns the
module record without error, because the recursion only descends from a
top-level call (includeFromChild nil) and every recursive call passes a
non-nil includeFromChild. -/
theorem cyclic_include_resolves_without_error :
    parseLocals cyclicEnv "a" none =
      .ok { emptyResolvedLocals with AtlantisWorkflow := "w" } := rfl

/-- C3 amended: resolution never loops or overflows on any include graph,
cyclic ones included, because recursion depth is bounded by two: with any
fuel of at least two, parseLocalsFuel agrees with parseLocals, the fuel-2
instance; but no cyclic-include error is ever produced (see the
counterexample, where a self-include resolves to an ok record). -/
theorem parseLocals_fuel_independent (env : Env) (path : String)
    (includeFromChild : Option IncludeConfig) (fuel : Nat) (h : 2 ≤ fuel) :
    parseLocalsFuel env fuel path includeFromChild = parseLocals env path includeFromChild := by
  unfold parseLocals
  cases includeFromChild with
  | some i =>
      rw [parseLocalsFuel_some env fuel path i (by omega),
        parseLocalsFuel_some env 2 path i (by omega)]
  | none =>
      obtain ⟨k, rfl⟩ : ∃ k, fuel = k + 1 := ⟨fuel - 1, by omega⟩
      have h2 : (2 : Nat) = 1 + 1 := rfl
      rw [h2, parseLocalsFuel_top, parseLocalsFuel_top]
      cases henv : env path with
      | error e => rfl
      | ok file =>
          have hfun : ∀ fl : Nat, 1 ≤ fl →
              (fun (acc : ResolvedLocals) (includeConfig : IncludeConfig) =>
                mergeResolvedLocals acc
                  (match parseLocalsFuel env fl includeConfig.Path (some includeConfig) with
                   | .ok parentLocals => parentLocals
                   | .error _ => emptyResolvedLocals)) =
              (fun (acc : ResolvedLocals) (includeConfig : IncludeConfig) =>
                mergeResolvedLocals acc (resolveParentRecord env includeConfig.Path)) := by
            intro fl hfl
            funext acc includeConfig
            rw [parseLocalsFuel_child_val env fl includeConfig.Path includeConfig hfl]
          simp only [hfun k (by omega), hfun 1 (by omega)]

/-- The witness for parseLocals_fuel_independent, at the cyclic environment
and fuel 5. -/
theorem parseLocals_fuel_independent_witness :
    (2 : Nat) ≤ 5 ∧ parseLocalsFuel cyclicEnv 5 "a" none = parseLocals cyclicEnv "a" none :=
  ⟨by omega, parseLocals_fuel_independent cyclicEnv "a" none 5 (by omega)⟩

/-- A three-level include chain: a includes b, b includes c, and only c
declares a local (a workflow name). -/
def chainEnv : Env := fun path =>
  if path = "a" then
    .ok { localsAsCty := none, trackInclude := some [{ Path := "b" }] }
  else if path = "b" then
    .ok { localsAsCty := none, trackInclude := some [{ Path := "c" }] }
  else if path = "c" then
    .ok { localsAsCty := some [("atlantis_workflow", CtyValue.str "gp")],
          trackInclude := none }
  else .error "no such file"

/-- C4 counterexample: the grandparent locals are not folded into the
grandchild. Resolving b top-level picks up the workflow of its parent c,
but resolving a top-level yields the all-unset record: the recursive call
on b passes a non-nil includeFromChild, so the include of b on c is never
followed. -/
theorem grandparent_locals_dropped :
    parseLocals chainEnv "a" none = .ok emptyResolvedLocals
    ∧ parseLocals chainEnv "b" none =
      .ok { emptyResolvedLocals with AtlantisWorkflow := "gp" } :=
  ⟨rfl, rfl⟩

/-- C4 amended: for a top-level module whose file decodes to file, the
resolved record folds only the directly-included parents, each contributing
its own extracted record (resolveParentRecord), parent-then-child in
include-declaration order, with the module record merged last so its set
fields override all includes; ancestors of ancestors are not resolved. -/
theorem parseLocals_top_level_fold (env : Env) (path : String) (file : ModuleFile)
    (h : env path = .ok file) :
    parseLocals env path none =
      .ok (mergeResolvedLocals
        ((file.trackInclude.getD []).foldl
          (fun acc includeConfig =>
            mergeResolvedLocals acc (resolveParentRecord env includeConfig.Path))
          emptyResolvedLocals)
        (resolveLocals file.localsAsCty)) := by
  unfold parseLocals
  have h2 : (2 : Nat) = 1 + 1 := rfl
  rw [h2, parseLocalsFuel_top, h]
  have hfun : (fun (acc : ResolvedLocals) (includeConfig : IncludeConfig) =>
      mergeResolvedLocals acc
        (match parseLocalsFuel env 1 includeConfig.Path (some includeConfig) with
         | .ok parentLocals => parentLocals
         | .error _ => emptyResolvedLocals)) =
      (fun (acc : ResolvedLocals) (includeConfig : IncludeConfig) =>
        mergeResolvedLocals acc (resolveParentRecord env includeConfig.Path)) := by
    funext acc includeConfig
    rw [parseLocalsFuel_child_val env 1 includeConfig.Path includeConfig (by omega)]
  simp only [hfun]

/-- The witness for parseLocals_top_level_fold, at the three-level chain
environment and its top module a. -/
theorem parseLocals_top_level_fold_witness :
    parseLocals chainEnv "a" none =
      .ok (mergeResolvedLocals
        ((({ localsAsCty := none, trackInclude := some [{ Path := "b" }] } :
            ModuleFile).trackInclude.getD []).foldl
          (fun acc includeConfig =>
            mergeResolvedLocals acc (resolveParentRecord chainEnv includeConfig.Path))
          emptyResolvedLocals)
        (resolveLocals
          ({ localsAsCty := none, trackInclude := some [{ Path := "b" }] } :
            ModuleFile).localsAsCty)) :=
  parseLocals_top_level_fold chainEnv "a"
    { localsAsCty := none, trackInclude := some [{ Path := "b" }] } rfl

/-- An environment where the module at path child includes a parent whose
read-parse-decode step fails. -/
def badParentEnv : Env := fun path =>
  if path = "child" then
    .ok { localsAsCty := some [("atlantis_branch", CtyValue.str "main")],
          trackInclude := some [{ Path := "parent" }] }
  else .error "parse failure in parent"

/-- C6 counterexample: the failure of the included parent is not
propagated: resolution of the child succeeds, with the failed parent
contributing the zero-value record, because the Go body binds the error of
the recursive call to the blank identifier. -/
theorem parent_failure_silently_discarded :
    badParentEnv "parent" = .error "parse failure in parent"
    ∧ parseLocals badParentEnv "child" none =
      .ok { emptyResolvedLocals with BranchProject := "main" } :=
  ⟨rfl, rfl⟩

/-- C6 amended: a top-level parseLocals call fails exactly when the
read-parse-decode of the module file itself fails; failures of included
parents are discarded (the parent then contributes the zero-value record,
as the counterexample shows). -/
theorem parseLocals_error_iff_own_file (env : Env) (path : String) (e : String) :
    parseLocals env path none = .error e ↔ env path = .error e := by
  unfold parseLocals
  have h2 : (2 : Nat) = 1 + 1 := rfl
  rw [h2, parseLocalsFuel_top]
  cases henv : env path with
  | error e2 => simp
  | ok file => simp

/-- C5 counterexample: the string fields are not tri-state. A workflow
local explicitly set to the empty string extracts to the same record as an
absent workflow local, and the merge then keeps the parent value instead
of overriding it with the explicit empty string. -/
theorem workflow_empty_string_conflated :
    resolveLocals (some [("atlantis_workflow", CtyValue.str "")]) = resolveLocals none
    ∧ (mergeResolvedLocals { emptyResolvedLocals with AtlantisWorkflow := "prod" }
        (resolveLocals (some [("atlantis_workflow", CtyValue.str "")]))).AtlantisWorkflow =
      "prod" :=
  ⟨rfl, rfl⟩

/-- C5 amended: only the pointer-typed boolean flags and the slice-typed
requirement lists are tri-state (an explicit false or explicit empty list
is distinguished from unset by both extraction and merge); the plain
string fields are two-state, the merge treating an empty child string as
unset and keeping the parent value. -/
theorem tri_state_pointers_and_slices_only (p : ResolvedLocals) (b : Bool) (l : List String) :
    (mergeResolvedLocals p { emptyResolvedLocals with AutoPlan := some b }).AutoPlan = some b
    ∧ (mergeResolvedLocals p { emptyResolvedLocals with
        DeleteSourceBranchOnMergeProject := some b }).DeleteSourceBranchOnMergeProject = some b
    ∧ (mergeResolvedLocals p
        { emptyResolvedLocals with RepoLocking := some b }).RepoLocking = some b
    ∧ (mergeResolvedLocals p { emptyResolvedLocals with Skip := some b }).Skip = some b
    ∧ (mergeResolvedLocals p { emptyResolvedLocals with
        PlanRequirements := some l }).PlanRequirements = some l
    ∧ (mergeResolvedLocals p emptyResolvedLocals).AutoPlan = p.AutoPlan
    ∧ (mergeResolvedLocals p emptyResolvedLocals).PlanRequirements = p.PlanRequirements
    ∧ (resolveLocals (some [("atlantis_autoplan", CtyValue.bool false)])).AutoPlan = some false
    ∧ (resolveLocals
        (some [("atlantis_plan_requirements", CtyValue.list [])])).PlanRequirements = some []
    ∧ (mergeResolvedLocals p
        { emptyResolvedLocals with AtlantisWorkflow := "" }).AtlantisWorkflow =
      p.AtlantisWorkflow
    ∧ (mergeResolvedLocals p
        { emptyResolvedLocals with BranchProject := "" }).BranchProject = p.BranchProject
    ∧ (mergeResolvedLocals p
        { emptyResolvedLocals with TerraformVersion := "" }).TerraformVersion =
      p.TerraformVersion := by
  refine ⟨?_, ?_, ?_, ?_, ?_, ?_, ?_, rfl, rfl, ?_, ?_, ?_⟩ <;>
    simp [mergeResolvedLocals, emptyResolvedLocals, sliceLen]

/-- C7: readOldConfig fails exactly when the prior output file was read
(it exists) and its bytes fail to unmarshal; a failed read (the missing
prior file) is not an error and yields no prior state. -/
theorem readOldConfig_error_iff (unmarshal : String → Except String AtlantisConfig)
    (readResult : Option String) :
    ((∃ e, readOldConfig unmarshal readResult = .error e) ↔
      (∃ bytes e, readResult = some bytes ∧ unmarshal bytes = .error e))
    ∧ (readResult = none → readOldConfig unmarshal readResult = .ok none) := by
  constructor
  · cases readResult with
    | none => simp [readOldConfig]
    | some bytes =>
        cases h : unmarshal bytes with
        | error e => simp [readOldConfig, h]
        | ok c => simp [readOldConfig, h]
  · rintro rfl
    rfl

/-- The witness for readOldConfig_error_iff: a missing prior file yields
no prior state and no error, even when every unmarshal attempt would
fail. -/
theorem readOldConfig_error_iff_witness :
    readOldConfig (fun _ => .error "corrupt") none = .ok none :=
  (readOldConfig_error_iff (fun _ => .error "corrupt") none).2 rfl

theorem resolveBranch_Import (raw : LocalsMap) (r : ResolvedLocals) :
    (resolveBranch raw r).ImportRequirements = r.ImportRequirements := by
  unfold resolveBranch
  split <;> rfl

theorem resolveDeleteSourceBranch_Import (raw : LocalsMap) (r : ResolvedLocals) :
    (resolveDeleteSourceBranch raw r).ImportRequirements = r.ImportRequirements := by
  unfold resolveDeleteSourceBranch
  split <;> rfl

theorem resolveWorkflow_Import (raw : LocalsMap) (r : ResolvedLocals) :
    (resolveWorkflow raw r).ImportRequirements = r.ImportRequirements := by
  unfold resolveWorkflow
  split <;> rfl

theorem resolveTerraformVersion_Import (raw : LocalsMap) (r : ResolvedLocals) :
    (resolveTerraformVersion raw r).ImportRequirements = r.ImportRequirements := by
  unfold resolveTerraformVersion
  split <;> rfl

theorem resolveAutoPlan_Import (raw : LocalsMap) (r : ResolvedLocals) :
    (resolveAutoPlan raw r).ImportRequirements = r.ImportRequirements := by
  unfold resolveAutoPlan
  split <;> rfl

theorem resolveRepoLocking_Import (raw : LocalsMap) (r : ResolvedLocals) :
    (resolveRepoLocking raw r).ImportRequirements = r.ImportRequirements := by
  unfold resolveRepoLocking
  split <;> rfl

theorem resolveSkip_Import (raw : LocalsMap) (r : ResolvedLocals) :
    (resolveSkip raw r).ImportRequirements = r.ImportRequirements := by
  unfold resolveSkip
  split <;> rfl

theorem resolvePlanRequirements_Import (raw : LocalsMap) (r : ResolvedLocals) :
    (resolvePlanRequirements raw r).ImportRequirements = r.ImportRequirements := by
  unfold resolvePlanRequirements
  split <;> rfl

theorem resolveApplyRequirements_Import (raw : LocalsMap) (r : ResolvedLocals) :
    (resolveApplyRequirements raw r).ImportRequirements = r.ImportRequirements := by
  unfold resolveApplyRequirements
  split <;> rfl

theorem resolveMarkedProject_Import (raw : LocalsMap) (r : ResolvedLocals) :
    (resolveMarkedProject raw r).ImportRequirements = r.ImportRequirements := by
  unfold resolveMarkedProject
  split <;> rfl

theorem resolveExtraDependencies_Import (raw : LocalsMap) (r : ResolvedLocals) :
    (resolveExtraDependencies raw r).ImportRequirements = r.ImportRequirements := by
  unfold resolveExtraDependencies
  split <;> rfl

/-- The import-requirements field of an extraction is exactly the value
found under the doubled-m key, elementwise stringified. -/
theorem resolveLocals_ImportRequirements (m : LocalsMap) :
    (resolveLocals (some m)).ImportRequirements =
      (lookupLocal m "atlantis_immport_requirements").map
        (fun v => v.elements.map CtyValue.asString) := by
  show (resolveExtraDependencies m _).ImportRequirements = _
  rw [resolveExtraDependencies_Import, resolveMarkedProject_Import]
  unfold resolveImportRequirements
  cases h : lookupLocal m "atlantis_immport_requirements" with
  | none =>
      rw [resolveApplyRequirements_Import, resolvePlanRequirements_Import,
        resolveSkip_Import, resolveRepoLocking_Import, resolveAutoPlan_Import,
        resolveTerraformVersion_Import, resolveWorkflow_Import,
        resolveDeleteSourceBranch_Import, resolveBranch_Import]
      rfl
  | some v => rfl

/-- C10: the extractor populates the import-requirements field exactly
when the evaluated locals mapping contains the key with the doubled
letter m, atlantis_immport_requirements; a mapping holding only the
conventionally spelled key atlantis_import_requirements leaves the field
unset. -/
theorem import_requirements_misspelled_key (m : LocalsMap) (v : CtyValue) :
    ((resolveLocals (some m)).ImportRequirements.isSome ↔
      (lookupLocal m "atlantis_immport_requirements").isSome)
    ∧ (resolveLocals
        (some [("atlantis_import_requirements", v)])).ImportRequirements = none := by
  constructor
  · rw [resolveLocals_ImportRequirements]
    cases lookupLocal m "atlantis_immport_requirements" <;> simp
  · rw [resolveLocals_ImportRequirements]
    rfl

end TerragruntAtlantis
